import Mathlib

/-!
A shallow embedding of `src/utils/image_cache.py` (class `ImageCache`): a
content-addressed disk cache for remotely fetched images, with three
operations: `get_cached_image_path` (path resolution), `download_image`
(fetch with retry and fallback) and `clear_old_cache` (oldest-first
eviction).

Python strings are modelled as `String` / `List Char`; the filesystem as a
flat list of (path, size) pairs; real-valued sizes and delays exactly as
rationals (`Rat`); fallible operations via `Except`.  External collaborators
(the `utils.config` module, `requests`, the OS) are modelled as explicit
parameters and environments.
-/

/-- Modelled from the spec: the configuration surface (spec section 6) supplied by the
`utils.config` module, which is not part of the sources.  Fields carry the
spec's recognized option names.  `IMAGE_DOWNLOAD_TIMEOUT` is omitted: it is
passed through to the network layer and never inspected by the cache logic. -/
structure Config where
  IMAGES_CACHE_DIR : String
  IMAGE_DOWNLOAD_MAX_RETRIES : Nat
  IMAGE_DOWNLOAD_RETRY_DELAYS : List Rat
  DEFAULT_IMAGE_PATH : String
  IMAGE_CACHE_MAX_SIZE_MB : Rat
deriving DecidableEq

/-! ## Path resolution (`ImageCache.get_cached_image_path`) -/

/-- The extension component of `os.path.splitext` (POSIX semantics), on a
character list.  `splitext` finds the last `'.'` of the string; the extension
is the substring from that dot to the end, provided the dot lies strictly
after the last `'/'` and at least one character of the basename before the
dot is not itself a dot (leading dots of the basename never begin an
extension); otherwise the extension is empty.  Computed here on the reversed
list: `base_r` is the reversed basename, `pre_r` the reversed run after the
last dot, `rest_r` the reversed basename characters strictly before the last
dot. -/
def splitextExt (p : List Char) : List Char :=
  let base_r := p.reverse.takeWhile (· != '/')
  let pre_r := base_r.takeWhile (· != '.')
  let rest_r := (base_r.dropWhile (· != '.')).tail
  if base_r.contains '.' && rest_r.any (· != '.') then
    '.' :: pre_r.reverse
  else []

/-- Expression `os.path.splitext(image_url.split('?')[0])[-1] or '.jpg'` from
`get_cached_image_path`: the pre-`'?'` part of the URL (`split('?')[0]`),
its `splitext` extension, and the `'.jpg'` default when that is empty (the
falsy-`or`).  The `try/except` around this expression in the source cannot
fire for string input, so it has no counterpart here. -/
def fileExtensionOf (image_url : String) : String :=
  let pre := image_url.toList.takeWhile (· != '?')
  let e := splitextExt pre
  if e.isEmpty then ".jpg" else String.mk e

/-- Model of `os.path.join` for one directory and one relative component (POSIX
semantics): an absolute second component wins; otherwise the parts are glued
with a single `'/'` unless the directory is empty or already ends in `'/'`. -/
def osPathJoin (dir f : String) : String :=
  if f.toList.head? == some '/' then f
  else if dir = "" then f
  else if dir.toList.getLast? == some '/' then dir ++ f
  else dir ++ "/" ++ f

/-- Source `ImageCache.get_cached_image_path`, pure part: hash the URL, pick the
extension, join with the cache directory.  The MD5 hex digest is an external
library routine, taken as the parameter `md5hex`; the `os.makedirs` side
effect (and its possible failure) is handled at the call site in
`download_image`. -/
def get_cached_image_path (cfg : Config) (md5hex : String → String)
    (image_url : String) : String :=
  let url_hash := md5hex image_url
  let file_extension := fileExtensionOf image_url
  osPathJoin cfg.IMAGES_CACHE_DIR (url_hash ++ file_extension)

/-- The extension rule exactly as claim C5 words it: the substring after the
last `'.'` of the URL's pre-`'?'` part (the dot kept so that it can be
concatenated to the digest), defaulting to `'.jpg'` when that part has no
`'.'` at all. -/
def extClaimC5 (image_url : String) : String :=
  let pre := image_url.toList.takeWhile (· != '?')
  if pre.contains '.' then
    String.mk ('.' :: (pre.reverse.takeWhile (· != '.')).reverse)
  else ".jpg"

/-- The extension rule as the amended claim C5 words it: only the final
`'/'`-separated segment of the pre-`'?'` part is inspected; leading dots of
that segment never begin an extension; if, after the leading dots, the
segment still contains a `'.'`, the extension runs from the segment's last
`'.'` to the end, else it defaults to `'.jpg'`. -/
def extAmendedC5 (image_url : String) : String :=
  let pre := image_url.toList.takeWhile (· != '?')
  let base := (pre.reverse.takeWhile (· != '/')).reverse
  let stem := base.dropWhile (· == '.')
  if stem.contains '.' then
    String.mk ('.' :: (base.reverse.takeWhile (· != '.')).reverse)
  else ".jpg"

/-! ## The filesystem model

A flat list of (path, byte size) pairs, most recent write first; the cache
directory needs no separate representation because the code only ever tests
single paths.  `os.path.exists` never raises; `os.path.getsize` on a missing
path raises (returns `none` here, turned into an exception by callers that
reach it). -/

abbrev Fs := List (String × Nat)

def Fs.fileExists (fs : Fs) (p : String) : Bool :=
  fs.any (fun e => e.1 == p)

def Fs.getsize (fs : Fs) (p : String) : Option Nat :=
  (fs.find? (fun e => e.1 == p)).map (·.2)

/-- Model of `open(path, 'wb')` followed by writing `sz` bytes: full overwrite. -/
def Fs.write (fs : Fs) (p : String) (sz : Nat) : Fs :=
  (p, sz) :: fs.filter (fun e => e.1 != p)

/-! ## Fetching (`ImageCache.download_image`)

One loop iteration issues `requests.get` + `raise_for_status`; the
environment decides, per attempt index, which of the source's exception
classes fires there, or the response's declared content type (`none` when
the `content-type` header is absent) together with the outcome of the
save-to-disk step. -/

/-- Outcome of the save step (`open` + `iter_content` + `write`).  The
`part` field of the failure constructors is the byte size the cache file was
left with when the exception fired (`none`: the file was not touched). -/
inductive SaveOutcome where
  | written (size : Nat)
  | permError (part : Option Nat)
  | reqErrorDuring (part : Option Nat)
  | otherError (part : Option Nat)
deriving DecidableEq

/-- What one `requests.get` attempt yields: one of the three
request-layer exception classes the source catches
(`ConnectionError`, `Timeout`, other `RequestException` — the last also
covering `raise_for_status` on a bad status code), or a successful response
carrying its declared content type and, should the code decide to save, the
save outcome. -/
inductive AttemptOutcome where
  | connError
  | timeoutError
  | requestError
  | resp (contentType : Option String) (save : SaveOutcome)
deriving DecidableEq

/-- The log records the source emits, one constructor per `logger.` call
site in `download_image`. -/
inductive LogEvent where
  | errorInvalidUrl
  | warnBadContentType
  | warnSaveFailed
  | infoCached
  | warnNetError (attempt : Nat)
  | errorPermission
  | errorUnexpected
  | warnUsingDefault
deriving DecidableEq

/-- Exceptions that can escape `download_image` to its caller. -/
inductive PyErr where
  | osError      -- `os.makedirs` failing inside `get_cached_image_path`
  | indexError   -- `IMAGE_DOWNLOAD_RETRY_DELAYS[attempt]` out of range
deriving DecidableEq

/-- Everything the outside world decides during one `download_image` call. -/
structure FetchEnv where
  makedirsFails : Bool
  attempt : Nat → AttemptOutcome

/-- Observable state threaded through a fetch: the filesystem, the number of
`requests.get` calls issued, the `time.sleep` durations in order, and the
log, oldest first. -/
structure FetchState where
  fs : Fs
  netCalls : Nat
  sleeps : List Rat
  logs : List LogEvent
deriving DecidableEq

/-- Check `content_type.startswith('image/')` where
`content_type = response.headers.get('content-type', '')`. -/
def contentTypeIsImage (contentType : Option String) : Bool :=
  List.isPrefixOf "image/".toList (contentType.getD "").toList

/-- Effect of a failed save step on the cache file. -/
def applyPart (fs : Fs) (p : String) (part : Option Nat) : Fs :=
  match part with
  | none => fs
  | some sz => fs.write p sz

/-- Lines 113–115: after the fall-through of the three request-layer
`except` arms, `time.sleep(Config.IMAGE_DOWNLOAD_RETRY_DELAYS[attempt])`
runs when `attempt < Config.IMAGE_DOWNLOAD_MAX_RETRIES - 1`; the list
indexing raises `IndexError` (outside the `try`, hence propagating) when the
schedule is too short. -/
def sleepStep (cfg : Config) (attempt : Nat) (st : FetchState) :
    Except PyErr FetchState :=
  if attempt < cfg.IMAGE_DOWNLOAD_MAX_RETRIES - 1 then
    match cfg.IMAGE_DOWNLOAD_RETRY_DELAYS.get? attempt with
    | none => .error .indexError
    | some d => .ok { st with sleeps := st.sleeps ++ [d] }
  else .ok st

/-- The `for attempt in range(Config.IMAGE_DOWNLOAD_MAX_RETRIES)` loop of
`download_image`, lines 66–115.  `fuel` is the number of iterations left
(initially `IMAGE_DOWNLOAD_MAX_RETRIES`), `attempt` the current index.
Returns the final state and `some path` on the in-loop `return`, `none` when
the loop is exhausted or `break`s (the caller then runs the fallback).  The
`continue`s of the content-type check and of the post-write verification
skip `sleepStep`; the request-layer exception arms fall through to it. -/
def downloadLoop (cfg : Config) (env : FetchEnv) (cached_path : String) :
    Nat → Nat → FetchState → Except PyErr (FetchState × Option String)
  | 0, _, st => .ok (st, none)
  | fuel + 1, attempt, st =>
    let st := { st with netCalls := st.netCalls + 1 }
    match env.attempt attempt with
    | .connError =>
      let st := { st with logs := st.logs ++ [.warnNetError attempt] }
      (sleepStep cfg attempt st).bind fun st =>
        downloadLoop cfg env cached_path fuel (attempt + 1) st
    | .timeoutError =>
      let st := { st with logs := st.logs ++ [.warnNetError attempt] }
      (sleepStep cfg attempt st).bind fun st =>
        downloadLoop cfg env cached_path fuel (attempt + 1) st
    | .requestError =>
      let st := { st with logs := st.logs ++ [.warnNetError attempt] }
      (sleepStep cfg attempt st).bind fun st =>
        downloadLoop cfg env cached_path fuel (attempt + 1) st
    | .resp contentType save =>
      if !contentTypeIsImage contentType then
        -- lines 82–85: warning, then `continue` — no save, no sleep
        let st := { st with logs := st.logs ++ [.warnBadContentType] }
        downloadLoop cfg env cached_path fuel (attempt + 1) st
      else
        match save with
        | .written sz =>
          let st := { st with fs := st.fs.write cached_path sz }
          -- lines 92–95: verify, `continue` on failure — again no sleep
          if !st.fs.fileExists cached_path || st.fs.getsize cached_path == some 0 then
            let st := { st with logs := st.logs ++ [.warnSaveFailed] }
            downloadLoop cfg env cached_path fuel (attempt + 1) st
          else
            .ok ({ st with logs := st.logs ++ [.infoCached] }, some cached_path)
        | .permError part =>
          -- lines 106–108: logged as error, `break`
          let st := { st with fs := applyPart st.fs cached_path part,
                              logs := st.logs ++ [.errorPermission] }
          .ok (st, none)
        | .reqErrorDuring part =>
          -- a RequestException while streaming the body: same arm as the
          -- request-layer failures, falls through to the sleep
          let st := { st with fs := applyPart st.fs cached_path part,
                              logs := st.logs ++ [.warnNetError attempt] }
          (sleepStep cfg attempt st).bind fun st =>
            downloadLoop cfg env cached_path fuel (attempt + 1) st
        | .otherError part =>
          -- lines 109–111: logged as error, `break`
          let st := { st with fs := applyPart st.fs cached_path part,
                              logs := st.logs ++ [.errorUnexpected] }
          .ok (st, none)

/-- Source `ImageCache.download_image`.  Mirrors the source order: URL validation,
path resolution (whose `os.makedirs` is outside any `try` and therefore
propagates a failure), the cache-hit shortcut, the retry loop, and the
default-image fallback. -/
def download_image (cfg : Config) (md5hex : String → String) (env : FetchEnv)
    (fs0 : Fs) (image_url : String) (force_download : Bool) :
    Except PyErr (FetchState × Option String) :=
  let st0 : FetchState := ⟨fs0, 0, [], []⟩
  if image_url = "" then
    .ok ({ st0 with logs := [.errorInvalidUrl] }, none)
  else if env.makedirsFails then
    .error .osError
  else
    let cached_path := get_cached_image_path cfg md5hex image_url
    if !force_download && fs0.fileExists cached_path then
      .ok (st0, some cached_path)
    else
      match downloadLoop cfg env cached_path cfg.IMAGE_DOWNLOAD_MAX_RETRIES 0 st0 with
      | .error e => .error e
      | .ok (st, some p) => .ok (st, some p)
      | .ok (st, none) =>
        if st.fs.fileExists cfg.DEFAULT_IMAGE_PATH then
          .ok ({ st with logs := st.logs ++ [.warnUsingDefault] },
               some cfg.DEFAULT_IMAGE_PATH)
        else .ok (st, none)

/-! ## Eviction (`ImageCache.clear_old_cache`)

The cache directory is modelled as its `os.listdir` listing: a list of
regular files with name, byte size and modification time.  Python's float
arithmetic on sizes is modelled exactly over `Rat`; the running
megabyte total is kept as its numerator in bytes and divided by `1024*1024`
at each comparison, which is the same rational value at every step as
subtracting each file's megabyte size from the initial megabyte total. -/

structure CacheFile where
  name : String
  size : Nat
  mtime : Nat
deriving DecidableEq

/-- Model of `os.remove` on the directory listing. -/
def dirRemove (dir : List CacheFile) (n : String) : List CacheFile :=
  dir.filter (fun f => f.name != n)

/-- Model of `os.path.getsize` against the current directory contents: `none` when
the file no longer exists, in which case the caller raises. -/
def dirGetsize (dir : List CacheFile) (n : String) : Option Nat :=
  (dir.find? (fun f => f.name == n)).map (·.size)

/-- Sorting `cached_files.sort(key=os.path.getmtime)`: a stable sort by
modification time, ties keeping the listing order (Python's sort is
stable). -/
def sortByMtime (dir : List CacheFile) : List CacheFile :=
  dir.insertionSort (fun a b => a.mtime ≤ b.mtime)

/-- The `while total_size_mb > max_size and cached_files:` loop of
`clear_old_cache`, lines 152–155, together with the surrounding
`try/except` (line 157) that swallows any exception and ends the pass.
`dir` is the current directory contents, `queue` the sorted list still to be
considered, `total_bytes` the running total in bytes (so the running
megabyte value the source compares is `total_bytes / 2^20`).  After
`os.remove(oldest_file)` the source reads
`os.path.getsize(oldest_file)` — the file it has just deleted — so that read
raises, the handler catches it, and the remaining work is abandoned: the
`none` branch below. -/
def evictLoop (dir : List CacheFile) : List CacheFile → Int → Rat → List CacheFile
  | [], _, _ => dir
  | oldest :: rest, total_bytes, max_size =>
    if Rat.divInt total_bytes (1024 * 1024) > max_size then
      let dir' := dirRemove dir oldest.name
      match dirGetsize dir' oldest.name with
      | none => dir'
      | some sz =>
        evictLoop dir' rest (total_bytes - sz) max_size
    else dir

/-- Source `ImageCache.clear_old_cache`: list the directory, sort oldest first,
total the sizes, pick the budget — the caller-supplied one unless it is
falsy (`None`, or `0` for a number), else `Config.IMAGE_CACHE_MAX_SIZE_MB` —
and run the removal loop.  Returns the directory contents after the pass. -/
def clear_old_cache (cfg : Config) (dir : List CacheFile)
    (max_cache_size_mb : Option Rat) : List CacheFile :=
  let cached_files := sortByMtime dir
  let total_size : Nat := (cached_files.map (·.size)).sum
  let max_size : Rat :=
    match max_cache_size_mb with
    | none => cfg.IMAGE_CACHE_MAX_SIZE_MB
    | some m => if m = 0 then cfg.IMAGE_CACHE_MAX_SIZE_MB else m
  evictLoop dir cached_files (total_size : Int) max_size

/-! ## Concrete fixtures -/

/-- A concrete stand-in for the MD5 hex digest, used only at concrete
inputs where the digest value is irrelevant to the property at issue. -/
def md5Ex : String → String := fun _ => "0123456789abcdef0123456789abcdef"

def cfgEx : Config := ⟨"cache", 3, [1, 2, 4], "default.png", 10⟩

def dirC1 : List CacheFile :=
  [⟨"a.jpg", 1048576, 1⟩, ⟨"b.jpg", 1048576, 2⟩, ⟨"c.jpg", 1048576, 3⟩]

/-- A two-attempt configuration with a single scheduled delay, for
comparing the backoff behaviour of different failure kinds. -/
def cfgTwo : Config := ⟨"cache", 2, [5], "default.png", 10⟩

/-- Every attempt raises `ConnectionError`. -/
def envConn : FetchEnv := ⟨false, fun _ => .connError⟩

/-- Every attempt yields a successful response declaring `text/html`. -/
def envHtml : FetchEnv := ⟨false, fun _ => .resp (some "text/html") (.written 7)⟩

/-- Environment where `os.makedirs` fails. -/
def envMkdirFail : FetchEnv := ⟨true, fun _ => .connError⟩

/-- Every attempt succeeds with an image body of 7 bytes. -/
def envImage : FetchEnv := ⟨false, fun _ => .resp (some "image/png") (.written 7)⟩

/-- Every attempt succeeds with an image content type but the save step
raises `PermissionError` before the file is touched. -/
def envPerm : FetchEnv := ⟨false, fun _ => .resp (some "image/png") (.permError none)⟩

/-- Every attempt yields a successful response with no `content-type`
header at all. -/
def envNoHeader : FetchEnv := ⟨false, fun _ => .resp none (.written 7)⟩

/-- The sleep durations a fetch performed, when it returned at all. -/
def sleepsOf (r : Except PyErr (FetchState × Option String)) : Option (List Rat) :=
  r.toOption.map (fun x => x.1.sleeps)

/-! ## Sanity checks for the resolver model, against CPython's own results -/

example : fileExtensionOf "http://x/a.png" = ".png" := by decide
example : fileExtensionOf "http://x/a.png?v=1" = ".png" := by decide
example : fileExtensionOf "http://a.com/img" = ".jpg" := by decide
example : fileExtensionOf "http://a.com" = ".com" := by decide
example : fileExtensionOf "http://x/.bashrc" = ".jpg" := by decide
example : fileExtensionOf "http://x/..a" = ".jpg" := by decide
example : fileExtensionOf "http://x/..." = ".jpg" := by decide
example : fileExtensionOf "http://x/a." = "." := by decide
example : fileExtensionOf "" = ".jpg" := by decide
example : fileExtensionOf "no/slash.trailing/" = ".jpg" := by decide
example : extClaimC5 "http://a.com/img" = ".com/img" := by decide
example : extAmendedC5 "http://a.com/img" = ".jpg" := by decide
example : extAmendedC5 "http://x/d.e/a.png" = ".png" := by decide

/-! ## Shared helper lemmas -/

theorem dropWhile_append_of_all {α : Type} (p : α → Bool) (l₁ l₂ : List α)
    (h : ∀ x ∈ l₁, p x) : (l₁ ++ l₂).dropWhile p = l₂.dropWhile p := by
  induction l₁ with
  | nil => rfl
  | cons c l ih =>
    simp only [List.cons_append, List.dropWhile_cons]
    rw [if_pos (by simpa using h c (by simp))]
    exact ih (fun x hx => h x (by simp [hx]))

theorem dropWhile_append_of_not_all {α : Type} (p : α → Bool) (l₁ l₂ : List α)
    (h : ∃ x ∈ l₁, ¬ p x) : (l₁ ++ l₂).dropWhile p = l₁.dropWhile p ++ l₂ := by
  induction l₁ with
  | nil => simp at h
  | cons c l ih =>
    simp only [List.cons_append, List.dropWhile_cons]
    by_cases hc : p c
    · rw [if_pos hc, if_pos hc]
      refine ih ?_
      obtain ⟨x, hx, hpx⟩ := h
      rcases List.mem_cons.mp hx with rfl | hx'
      · exact absurd hc hpx
      · exact ⟨x, hx', hpx⟩
    · rw [if_neg hc, if_neg hc, List.cons_append]

theorem dropWhile_eq_self_of_all_not {α : Type} (p : α → Bool) (l : List α)
    (h : ∀ x ∈ l, ¬ p x) : l.dropWhile p = l := by
  cases l with
  | nil => rfl
  | cons c l => simp [List.dropWhile_cons, h c (by simp)]

/-- Splitting a character list at its first `'.'`: the prefix is dot-free
and `dropWhile (· != '.')` lands exactly on that dot. -/
theorem dropWhile_firstDot (b : List Char) (h : '.' ∈ b) :
    ∃ s t, b = s ++ '.' :: t ∧ '.' ∉ s ∧ b.dropWhile (· != '.') = '.' :: t := by
  induction b with
  | nil => simp at h
  | cons c b ih =>
    by_cases hc : c = '.'
    · subst hc
      exact ⟨[], b, rfl, by simp, by simp [List.dropWhile_cons]⟩
    · have hb : '.' ∈ b := by
        rcases List.mem_cons.mp h with h' | h'
        · exact absurd h'.symm hc
        · exact h'
      obtain ⟨s, t, hb', hs, hd⟩ := ih hb
      refine ⟨c :: s, t, by simp [hb'], ?_, ?_⟩
      · simp only [List.mem_cons, not_or]
        exact ⟨fun h' => hc h'.symm, hs⟩
      · rw [List.dropWhile_cons, if_pos (by simpa using hc), hd]

/-- The `splitext` guard of the source (`base_r.contains '.'` with a non-dot
character before the last dot, phrased on the reversed basename) agrees with
the amended claim's guard (after stripping the basename's leading dots, a
dot remains). -/
theorem splitext_cond_eq (b : List Char) :
    (b.reverse.dropWhile (· == '.')).contains '.' =
      (b.contains '.' && ((b.dropWhile (· != '.')).tail).any (· != '.')) := by
  by_cases h : '.' ∈ b
  · obtain ⟨s, t, rfl, hs, hd⟩ := dropWhile_firstDot b h
    rw [hd]
    simp only [List.tail_cons]
    have hrev : (s ++ '.' :: t).reverse = t.reverse ++ '.' :: s.reverse := by
      simp
    rw [hrev]
    by_cases ht : ∃ x ∈ t, x ≠ '.'
    · have h1 : (t.reverse ++ '.' :: s.reverse).dropWhile (· == '.') =
          t.reverse.dropWhile (· == '.') ++ '.' :: s.reverse := by
        refine dropWhile_append_of_not_all _ _ _ ?_
        obtain ⟨x, hx, hpx⟩ := ht
        exact ⟨x, by simpa using hx, by simpa using hpx⟩
      rw [h1]
      have hL : (t.reverse.dropWhile (· == '.') ++ '.' :: s.reverse).contains '.' = true := by
        simp [List.contains]
      have hR1 : (s ++ '.' :: t).contains '.' = true := by simp [List.contains]
      have hR2 : t.any (· != '.') = true := by
        obtain ⟨x, hx, hpx⟩ := ht
        exact List.any_eq_true.mpr ⟨x, hx, by simpa using hpx⟩
      rw [hL, hR1, hR2]
      rfl
    · push_neg at ht
      have h1 : (t.reverse ++ '.' :: s.reverse).dropWhile (· == '.') =
          ('.' :: s.reverse).dropWhile (· == '.') := by
        refine dropWhile_append_of_all _ _ _ ?_
        intro x hx
        simpa using ht x (by simpa using hx)
      rw [h1]
      have h2 : ('.' :: s.reverse).dropWhile (· == '.') = s.reverse := by
        rw [List.dropWhile_cons, if_pos (by simp)]
        exact dropWhile_eq_self_of_all_not _ _ (fun x hx => by
          simp only [beq_iff_eq]
          intro hxx
          exact hs (by simpa [hxx] using hx))
      rw [h2]
      have hL : s.reverse.contains '.' = false := by
        simp only [List.contains, List.elem_eq_mem, decide_eq_false_iff_not, List.mem_reverse]
        exact hs
      have hR2 : t.any (· != '.') = false := by
        simp only [List.any_eq_false, bne_iff_ne, ne_eq, not_not]
        exact ht
      rw [hL, hR2]
      simp
  · have hL : (b.reverse.dropWhile (· == '.')).contains '.' = false := by
      simp only [List.contains, List.elem_eq_mem, decide_eq_false_iff_not]
      intro hmem
      exact h (by
        have := (List.dropWhile_suffix (l := b.reverse) (· == '.')).mem hmem
        simpa using this)
    have hR : b.contains '.' = false := by
      simp only [List.contains, List.elem_eq_mem, decide_eq_false_iff_not]
      exact h
    rw [hL, hR]
    rfl

/-- The source's extension computation agrees, on every URL, with the
amended description of claim C5. -/
theorem fileExtensionOf_eq_amended (image_url : String) :
    fileExtensionOf image_url = extAmendedC5 image_url := by
  unfold fileExtensionOf extAmendedC5 splitextExt
  simp only [List.reverse_reverse]
  rw [splitext_cond_eq]
  cases hc : ((image_url.toList.takeWhile (· != '?')).reverse.takeWhile
      (· != '/')).contains '.' &&
      ((((image_url.toList.takeWhile (· != '?')).reverse.takeWhile
        (· != '/')).dropWhile (· != '.')).tail).any (· != '.') <;>
    simp [hc]

/-- When every attempt raises `ConnectionError`, the loop runs through all
its iterations: one network call and one warning per iteration, one sleep of
`IMAGE_DOWNLOAD_RETRY_DELAYS[attempt]` after every iteration except the
last, the filesystem untouched, and no path returned. -/
theorem downloadLoop_connError (cfg : Config) (env : FetchEnv) (p : String)
    (hdel : cfg.IMAGE_DOWNLOAD_MAX_RETRIES - 1 ≤ cfg.IMAGE_DOWNLOAD_RETRY_DELAYS.length)
    (henv : ∀ i, env.attempt i = .connError) :
    ∀ (fuel attempt : Nat) (st : FetchState),
      attempt + fuel = cfg.IMAGE_DOWNLOAD_MAX_RETRIES →
      downloadLoop cfg env p fuel attempt st =
        .ok (⟨st.fs, st.netCalls + fuel,
              st.sleeps ++ ((cfg.IMAGE_DOWNLOAD_RETRY_DELAYS.take
                (cfg.IMAGE_DOWNLOAD_MAX_RETRIES - 1)).drop attempt),
              st.logs ++ (List.range' attempt fuel).map .warnNetError⟩, none) := by
  intro fuel
  induction fuel with
  | zero =>
    intro attempt st htot
    have hdrop : ((cfg.IMAGE_DOWNLOAD_RETRY_DELAYS.take
        (cfg.IMAGE_DOWNLOAD_MAX_RETRIES - 1)).drop attempt) = [] := by
      refine List.drop_eq_nil_of_le ?_
      simp only [List.length_take]
      omega
    simp [downloadLoop, hdrop]
  | succ fuel ih =>
    intro attempt st htot
    rw [downloadLoop, henv attempt]
    simp only []
    by_cases hlt : attempt < cfg.IMAGE_DOWNLOAD_MAX_RETRIES - 1
    · have hlen : attempt < cfg.IMAGE_DOWNLOAD_RETRY_DELAYS.length := by omega
      have hget : cfg.IMAGE_DOWNLOAD_RETRY_DELAYS.get? attempt =
          some (cfg.IMAGE_DOWNLOAD_RETRY_DELAYS[attempt]) := by
        rw [List.get?_eq_getElem?]
        exact List.getElem?_eq_getElem hlen
      rw [sleepStep, if_pos hlt, hget]
      simp only [Except.bind]
      rw [ih (attempt + 1) _ (by omega)]
      have hdrop : ((cfg.IMAGE_DOWNLOAD_RETRY_DELAYS.take
          (cfg.IMAGE_DOWNLOAD_MAX_RETRIES - 1)).drop attempt) =
          cfg.IMAGE_DOWNLOAD_RETRY_DELAYS[attempt] ::
            ((cfg.IMAGE_DOWNLOAD_RETRY_DELAYS.take
              (cfg.IMAGE_DOWNLOAD_MAX_RETRIES - 1)).drop (attempt + 1)) := by
        have hlen' : attempt < (cfg.IMAGE_DOWNLOAD_RETRY_DELAYS.take
            (cfg.IMAGE_DOWNLOAD_MAX_RETRIES - 1)).length := by
          simp only [List.length_take]
          omega
        rw [List.drop_eq_getElem_cons hlen']
        congr 1
        simp
      rw [hdrop, List.range'_succ]
      simp only [List.map_cons, List.append_assoc, List.singleton_append, List.cons_append]
      simp [Nat.add_comm, Nat.add_assoc, Nat.add_left_comm]
    · have hfuel : fuel = 0 := by omega
      subst hfuel
      rw [sleepStep, if_neg hlt]
      simp only [Except.bind]
      rw [ih (attempt + 1) _ (by omega)]
      have hd0 : ((cfg.IMAGE_DOWNLOAD_RETRY_DELAYS.take
          (cfg.IMAGE_DOWNLOAD_MAX_RETRIES - 1)).drop attempt) = [] := by
        refine List.drop_eq_nil_of_le ?_
        simp only [List.length_take]
        omega
      have hd1 : ((cfg.IMAGE_DOWNLOAD_RETRY_DELAYS.take
          (cfg.IMAGE_DOWNLOAD_MAX_RETRIES - 1)).drop (attempt + 1)) = [] := by
        refine List.drop_eq_nil_of_le ?_
        simp only [List.length_take]
        omega
      simp [hd0, hd1, List.range'_succ]

/-- C2: when every network attempt raises a connection error and the call
does not short-circuit on a cache hit, `download_image` makes exactly
`IMAGE_DOWNLOAD_MAX_RETRIES` attempts, sleeps `IMAGE_DOWNLOAD_RETRY_DELAYS[attempt]`
between consecutive attempts and not after the last one, leaves the
filesystem untouched, and returns `DEFAULT_IMAGE_PATH` when that file
exists, else `None`. -/
theorem C2_all_connection_errors (cfg : Config) (md5hex : String → String)
    (env : FetchEnv) (fs0 : Fs) (image_url : String) (force_download : Bool)
    (hurl : image_url ≠ "")
    (hmk : env.makedirsFails = false)
    (henv : ∀ i, env.attempt i = .connError)
    (hdel : cfg.IMAGE_DOWNLOAD_MAX_RETRIES - 1 ≤ cfg.IMAGE_DOWNLOAD_RETRY_DELAYS.length)
    (hmiss : (!force_download &&
      fs0.fileExists (get_cached_image_path cfg md5hex image_url)) = false) :
    download_image cfg md5hex env fs0 image_url force_download =
      .ok (⟨fs0, cfg.IMAGE_DOWNLOAD_MAX_RETRIES,
            cfg.IMAGE_DOWNLOAD_RETRY_DELAYS.take (cfg.IMAGE_DOWNLOAD_MAX_RETRIES - 1),
            (List.range cfg.IMAGE_DOWNLOAD_MAX_RETRIES).map .warnNetError ++
              (if fs0.fileExists cfg.DEFAULT_IMAGE_PATH then
                [LogEvent.warnUsingDefault] else [])⟩,
           if fs0.fileExists cfg.DEFAULT_IMAGE_PATH then
             some cfg.DEFAULT_IMAGE_PATH else none) := by
  rw [download_image, if_neg hurl, hmk]
  simp only [Bool.false_eq_true, if_false, hmiss]
  rw [downloadLoop_connError cfg env _ hdel henv cfg.IMAGE_DOWNLOAD_MAX_RETRIES 0 _ (by omega)]
  simp only [List.drop_zero, List.nil_append, Nat.zero_add, ← List.range_eq_range']
  by_cases hdef : Fs.fileExists fs0 cfg.DEFAULT_IMAGE_PATH
  · simp [hdef]
  · simp [hdef]

/-- C2 witness: three attempts against a permanently failing network, with
the default image present: three calls, sleeps of 1 and 2 (no sleep after
the last attempt), and the default path returned. -/
theorem C2_witness :
    download_image cfgEx md5Ex envConn [("default.png", 5)] "u" true =
      .ok (⟨[("default.png", 5)], cfgEx.IMAGE_DOWNLOAD_MAX_RETRIES,
            cfgEx.IMAGE_DOWNLOAD_RETRY_DELAYS.take (cfgEx.IMAGE_DOWNLOAD_MAX_RETRIES - 1),
            (List.range cfgEx.IMAGE_DOWNLOAD_MAX_RETRIES).map .warnNetError ++
              (if Fs.fileExists [("default.png", 5)] cfgEx.DEFAULT_IMAGE_PATH then
                [LogEvent.warnUsingDefault] else [])⟩,
           if Fs.fileExists [("default.png", 5)] cfgEx.DEFAULT_IMAGE_PATH then
             some cfgEx.DEFAULT_IMAGE_PATH else none) :=
  C2_all_connection_errors cfgEx md5Ex envConn [("default.png", 5)] "u" true
    (by decide) rfl (fun _ => rfl) (by decide) (by decide)

/-- When every attempt produces a successful response whose content type
does not begin with `image/`, each iteration logs a warning and `continue`s
straight to the next attempt: no save, and — because `continue` skips the
code after the `except` arms — no backoff sleep either. -/
theorem downloadLoop_mismatch (cfg : Config) (env : FetchEnv) (p : String)
    (henv : ∀ i, ∃ ct sv, env.attempt i = .resp ct sv ∧ contentTypeIsImage ct = false) :
    ∀ (fuel attempt : Nat) (st : FetchState),
      downloadLoop cfg env p fuel attempt st =
        .ok (⟨st.fs, st.netCalls + fuel, st.sleeps,
              st.logs ++ List.replicate fuel .warnBadContentType⟩, none) := by
  intro fuel
  induction fuel with
  | zero =>
    intro attempt st
    simp [downloadLoop]
  | succ fuel ih =>
    intro attempt st
    obtain ⟨ct, sv, he, hct⟩ := henv attempt
    rw [downloadLoop, he]
    simp only [hct, Bool.not_false, if_true]
    rw [ih (attempt + 1)]
    simp [List.replicate_succ, Nat.add_comm, Nat.add_assoc, Nat.add_left_comm]

/-- C3 counterexample: with two attempts and a delay schedule of `[5]`, a
run whose every response declares `text/html` sleeps not at all, while a run
whose every attempt raises a connection error sleeps the scheduled 5 —
so a content-type mismatch is *not* treated identically to a network failure
with respect to the between-attempt backoff delays: the `continue` on the
mismatch path skips the sleep. -/
theorem C3_counterexample :
    sleepsOf (download_image cfgTwo md5Ex envHtml [] "u" true) = some [] ∧
    sleepsOf (download_image cfgTwo md5Ex envConn [] "u" true) = some [5] ∧
    some ([] : List Rat) ≠ some [(5 : Rat)] := by
  decide

/-- C3 as amended: a response with a non-image content type on every attempt
never writes a file, consumes one attempt per mismatch with a logged
warning, and exhausts to the default-image fallback or absent — but, unlike
a network failure, it proceeds to the next attempt immediately, with no
backoff sleep. -/
theorem C3_amended_mismatch_no_backoff (cfg : Config) (md5hex : String → String)
    (env : FetchEnv) (fs0 : Fs) (image_url : String) (force_download : Bool)
    (hurl : image_url ≠ "")
    (hmk : env.makedirsFails = false)
    (henv : ∀ i, ∃ ct sv, env.attempt i = .resp ct sv ∧ contentTypeIsImage ct = false)
    (hmiss : (!force_download &&
      fs0.fileExists (get_cached_image_path cfg md5hex image_url)) = false) :
    download_image cfg md5hex env fs0 image_url force_download =
      .ok (⟨fs0, cfg.IMAGE_DOWNLOAD_MAX_RETRIES, [],
            List.replicate cfg.IMAGE_DOWNLOAD_MAX_RETRIES .warnBadContentType ++
              (if fs0.fileExists cfg.DEFAULT_IMAGE_PATH then
                [LogEvent.warnUsingDefault] else [])⟩,
           if fs0.fileExists cfg.DEFAULT_IMAGE_PATH then
             some cfg.DEFAULT_IMAGE_PATH else none) := by
  rw [download_image, if_neg hurl, hmk]
  simp only [Bool.false_eq_true, if_false, hmiss]
  rw [downloadLoop_mismatch cfg env _ henv cfg.IMAGE_DOWNLOAD_MAX_RETRIES 0]
  by_cases hdef : Fs.fileExists fs0 cfg.DEFAULT_IMAGE_PATH
  · simp [hdef]
  · simp [hdef]

/-- C3 witness: two `text/html` responses with no default image on disk:
two attempts, no sleeps, nothing written, absent returned. -/
theorem C3_witness :
    download_image cfgTwo md5Ex envHtml [] "u" true =
      .ok (⟨[], cfgTwo.IMAGE_DOWNLOAD_MAX_RETRIES, [],
            List.replicate cfgTwo.IMAGE_DOWNLOAD_MAX_RETRIES .warnBadContentType ++
              (if Fs.fileExists [] cfgTwo.DEFAULT_IMAGE_PATH then
                [LogEvent.warnUsingDefault] else [])⟩,
           if Fs.fileExists [] cfgTwo.DEFAULT_IMAGE_PATH then
             some cfgTwo.DEFAULT_IMAGE_PATH else none) :=
  C3_amended_mismatch_no_backoff cfgTwo md5Ex envHtml [] "u" true
    (by decide) rfl (fun _ => ⟨some "text/html", .written 7, rfl, by decide⟩) (by decide)

/-- C10: a successful response carrying no `content-type` header at all is
read as the empty string by `headers.get('content-type', '')`, which does
not begin with `image/`: the body is never saved, every such response
consumes one attempt with a warning (and no sleep, via the `continue`), and
the call exhausts to the default-image fallback or absent. -/
theorem C10_missing_content_type_is_mismatch (cfg : Config) (md5hex : String → String)
    (env : FetchEnv) (fs0 : Fs) (image_url : String) (force_download : Bool)
    (hurl : image_url ≠ "")
    (hmk : env.makedirsFails = false)
    (henv : ∀ i, ∃ sv, env.attempt i = .resp none sv)
    (hmiss : (!force_download &&
      fs0.fileExists (get_cached_image_path cfg md5hex image_url)) = false) :
    download_image cfg md5hex env fs0 image_url force_download =
      .ok (⟨fs0, cfg.IMAGE_DOWNLOAD_MAX_RETRIES, [],
            List.replicate cfg.IMAGE_DOWNLOAD_MAX_RETRIES .warnBadContentType ++
              (if fs0.fileExists cfg.DEFAULT_IMAGE_PATH then
                [LogEvent.warnUsingDefault] else [])⟩,
           if fs0.fileExists cfg.DEFAULT_IMAGE_PATH then
             some cfg.DEFAULT_IMAGE_PATH else none) := by
  rw [download_image, if_neg hurl, hmk]
  simp only [Bool.false_eq_true, if_false, hmiss]
  rw [downloadLoop_mismatch cfg env _
    (fun i => by
      obtain ⟨sv, hsv⟩ := henv i
      exact ⟨none, sv, hsv, by decide⟩)
    cfg.IMAGE_DOWNLOAD_MAX_RETRIES 0]
  by_cases hdef : Fs.fileExists fs0 cfg.DEFAULT_IMAGE_PATH
  · simp [hdef]
  · simp [hdef]

/-- C10 witness: three header-less responses with the default image on
disk: three consumed attempts, nothing written, the default path returned. -/
theorem C10_witness :
    download_image cfgEx md5Ex envNoHeader [("default.png", 5)] "u" true =
      .ok (⟨[("default.png", 5)], cfgEx.IMAGE_DOWNLOAD_MAX_RETRIES, [],
            List.replicate cfgEx.IMAGE_DOWNLOAD_MAX_RETRIES .warnBadContentType ++
              (if Fs.fileExists [("default.png", 5)] cfgEx.DEFAULT_IMAGE_PATH then
                [LogEvent.warnUsingDefault] else [])⟩,
           if Fs.fileExists [("default.png", 5)] cfgEx.DEFAULT_IMAGE_PATH then
             some cfgEx.DEFAULT_IMAGE_PATH else none) :=
  C10_missing_content_type_is_mismatch cfgEx md5Ex envNoHeader [("default.png", 5)] "u" true
    (by decide) rfl (fun _ => ⟨.written 7, rfl⟩) (by decide)

/-- The sleep step cannot fail when the delay schedule is long enough for
the retry count, as the configuration contract requires. -/
theorem sleepStep_total (cfg : Config) (attempt : Nat) (st : FetchState)
    (hdel : cfg.IMAGE_DOWNLOAD_MAX_RETRIES - 1 ≤ cfg.IMAGE_DOWNLOAD_RETRY_DELAYS.length) :
    ∃ st', sleepStep cfg attempt st = .ok st' := by
  rw [sleepStep]
  by_cases hlt : attempt < cfg.IMAGE_DOWNLOAD_MAX_RETRIES - 1
  · have hlen : attempt < cfg.IMAGE_DOWNLOAD_RETRY_DELAYS.length := by omega
    rw [if_pos hlt, List.get?_eq_getElem?, List.getElem?_eq_getElem hlen]
    exact ⟨_, rfl⟩
  · rw [if_neg hlt]
    exact ⟨st, rfl⟩

/-- A bound `Except` computation succeeds when both of its stages do. -/
theorem exceptBind_ok_total {ε α β : Type} {s : Except ε α} {f : α → Except ε β}
    (h1 : ∃ a, s = .ok a) (h2 : ∀ a, ∃ r, f a = .ok r) : ∃ r, s.bind f = .ok r := by
  obtain ⟨a, rfl⟩ := h1
  simpa [Except.bind] using h2 a

/-- A successful bound `Except` computation factors through a successful
first stage. -/
theorem exceptBind_eq_ok {ε α β : Type} {s : Except ε α} {f : α → Except ε β} {b : β}
    (h : s.bind f = .ok b) : ∃ a, s = .ok a ∧ f a = .ok b := by
  cases s with
  | error e => simp [Except.bind] at h
  | ok a => exact ⟨a, rfl, by simpa [Except.bind] using h⟩

/-- Under the configuration contract the retry loop itself never lets an
exception out: every arm either returns, breaks, or sleeps and retries. -/
theorem downloadLoop_total (cfg : Config) (env : FetchEnv) (p : String)
    (hdel : cfg.IMAGE_DOWNLOAD_MAX_RETRIES - 1 ≤ cfg.IMAGE_DOWNLOAD_RETRY_DELAYS.length) :
    ∀ (fuel attempt : Nat) (st : FetchState),
      ∃ r, downloadLoop cfg env p fuel attempt st = .ok r := by
  intro fuel
  induction fuel with
  | zero =>
    intro attempt st
    exact ⟨(st, none), rfl⟩
  | succ fuel ih =>
    intro attempt st
    rw [downloadLoop]
    cases he : env.attempt attempt with
    | connError =>
      exact exceptBind_ok_total (sleepStep_total cfg attempt _ hdel)
        (fun st' => ih (attempt + 1) st')
    | timeoutError =>
      exact exceptBind_ok_total (sleepStep_total cfg attempt _ hdel)
        (fun st' => ih (attempt + 1) st')
    | requestError =>
      exact exceptBind_ok_total (sleepStep_total cfg attempt _ hdel)
        (fun st' => ih (attempt + 1) st')
    | resp ct sv =>
      cases hct : contentTypeIsImage ct with
      | false =>
        simp only [hct, Bool.not_false, if_true]
        exact ih (attempt + 1) _
      | true =>
        simp only [hct, Bool.not_true, Bool.false_eq_true, if_false]
        split
        · split
          · exact ih (attempt + 1) _
          · exact ⟨_, rfl⟩
        · exact ⟨_, rfl⟩
        · exact exceptBind_ok_total (sleepStep_total cfg attempt _ hdel)
            (fun st' => ih (attempt + 1) st')
        · exact ⟨_, rfl⟩

/-- C4 counterexample: `get_cached_image_path` runs `os.makedirs` outside
any `try`, so a filesystem refusing to create the cache directory makes
`download_image` propagate the error to its caller. -/
theorem C4_counterexample :
    download_image cfgEx md5Ex envMkdirFail [] "u" false = .error .osError := by
  rfl

/-- C4 as amended: provided cache-directory creation succeeds and the
retry-delay schedule has at least `IMAGE_DOWNLOAD_MAX_RETRIES - 1` entries
(the configuration contract), no exception propagates out of
`download_image`: for every URL, environment and filesystem the call
returns a value — a path or absent. -/
theorem C4_amended_no_exception (cfg : Config) (md5hex : String → String)
    (env : FetchEnv) (fs0 : Fs) (image_url : String) (force_download : Bool)
    (hmk : env.makedirsFails = false)
    (hdel : cfg.IMAGE_DOWNLOAD_MAX_RETRIES - 1 ≤ cfg.IMAGE_DOWNLOAD_RETRY_DELAYS.length) :
    ∃ r, download_image cfg md5hex env fs0 image_url force_download = .ok r := by
  rw [download_image]
  by_cases hurl : image_url = ""
  · rw [if_pos hurl]
    exact ⟨_, rfl⟩
  · rw [if_neg hurl, hmk]
    simp only [Bool.false_eq_true, if_false]
    by_cases hhit : (!force_download &&
        fs0.fileExists (get_cached_image_path cfg md5hex image_url)) = true
    · rw [if_pos hhit]
      exact ⟨_, rfl⟩
    · simp only [Bool.not_eq_true] at hhit
      rw [hhit]
      simp only [Bool.false_eq_true, if_false]
      obtain ⟨⟨st, oret⟩, hloop⟩ :=
        downloadLoop_total cfg env _ hdel cfg.IMAGE_DOWNLOAD_MAX_RETRIES 0 ⟨fs0, 0, [], []⟩
      rw [hloop]
      cases oret with
      | some q => exact ⟨_, rfl⟩
      | none =>
        simp only []
        split
        · exact ⟨_, rfl⟩
        · exact ⟨_, rfl⟩

/-- C4 witness: a concrete failing-network call under the configuration
contract returns a value. -/
theorem C4_witness :
    ∃ r, download_image cfgEx md5Ex envConn [] "u" false = .ok r :=
  C4_amended_no_exception cfgEx md5Ex envConn [] "u" false rfl (by decide)

/-- A freshly written file exists. -/
theorem Fs.fileExists_write_self (fs : Fs) (p : String) (sz : Nat) :
    (fs.write p sz).fileExists p = true := by
  simp [Fs.write, Fs.fileExists]

/-- A freshly written file has the written size. -/
theorem Fs.getsize_write_self (fs : Fs) (p : String) (sz : Nat) :
    (fs.write p sz).getsize p = some sz := by
  simp [Fs.write, Fs.getsize, List.find?]

/-- A file with a size exists. -/
theorem Fs.fileExists_of_getsize (fs : Fs) (p : String) (sz : Nat)
    (h : fs.getsize p = some sz) : fs.fileExists p = true := by
  rw [Fs.getsize] at h
  rw [Fs.fileExists]
  obtain ⟨e, he⟩ : ∃ e, fs.find? (fun e => e.1 == p) = some e := by
    cases hf : fs.find? (fun e => e.1 == p) with
    | none => rw [hf] at h; simp at h
    | some e => exact ⟨e, rfl⟩
  refine List.any_eq_true.mpr ⟨e, List.mem_of_find?_eq_some he, ?_⟩
  have hp := List.find?_some he
  simpa using hp

/-- A path returned from inside the retry loop is the resolved cache path,
and the loop's success branch has verified the saved file to be non-empty:
the final filesystem holds it with a positive size. -/
theorem downloadLoop_some_nonzero (cfg : Config) (env : FetchEnv) (p : String) :
    ∀ (fuel attempt : Nat) (st st' : FetchState) (q : String),
      downloadLoop cfg env p fuel attempt st = .ok (st', some q) →
      q = p ∧ ∃ sz, st'.fs.getsize q = some sz ∧ 0 < sz := by
  intro fuel
  induction fuel with
  | zero =>
    intro attempt st st' q h
    simp [downloadLoop] at h
  | succ fuel ih =>
    intro attempt st st' q h
    rw [downloadLoop] at h
    cases he : env.attempt attempt <;> rw [he] at h
    case connError =>
      obtain ⟨st'', hs, h2⟩ := exceptBind_eq_ok h
      exact ih _ _ _ _ h2
    case timeoutError =>
      obtain ⟨st'', hs, h2⟩ := exceptBind_eq_ok h
      exact ih _ _ _ _ h2
    case requestError =>
      obtain ⟨st'', hs, h2⟩ := exceptBind_eq_ok h
      exact ih _ _ _ _ h2
    case resp ct sv =>
      cases hct : contentTypeIsImage ct with
      | false =>
        simp only [hct, Bool.not_false, if_true] at h
        exact ih _ _ _ _ h
      | true =>
        simp only [hct, Bool.not_true, Bool.false_eq_true, if_false] at h
        split at h
        case h_1 sz =>
          split at h
          · exact ih _ _ _ _ h
          · rename_i hver
            simp only [Except.ok.injEq, Prod.mk.injEq, Option.some.injEq] at h
            obtain ⟨hst, hq⟩ := h
            subst hq
            refine ⟨rfl, sz, ?_, ?_⟩
            · rw [← hst]
              exact Fs.getsize_write_self st.fs p sz
            · have h1 : (st.fs.write p sz).fileExists p = true :=
                Fs.fileExists_write_self st.fs p sz
              have h2 : (st.fs.write p sz).getsize p = some sz :=
                Fs.getsize_write_self st.fs p sz
              simp only [h1, h2, Bool.not_true, Bool.false_or, beq_iff_eq,
                Option.some.injEq] at hver
              omega
        case h_2 part => simp at h
        case h_3 part =>
          obtain ⟨st'', hs, h2⟩ := exceptBind_eq_ok h
          exact ih _ _ _ _ h2
        case h_4 part => simp at h

/-- C6 counterexample: a zero-byte file left at the resolved cache path
(for instance by an earlier interrupted write) makes the cache-hit branch —
which checks existence only — return the resolved path even though the file
is empty, so a fetch can return the resolved cache path while the file at
that path has size zero. -/
theorem C6_counterexample :
    download_image cfgEx md5Ex envConn
        [("cache/0123456789abcdef0123456789abcdef.jpg", 0)] "u" false =
      .ok (⟨[("cache/0123456789abcdef0123456789abcdef.jpg", 0)], 0, [], []⟩,
           some "cache/0123456789abcdef0123456789abcdef.jpg") ∧
    Fs.getsize [("cache/0123456789abcdef0123456789abcdef.jpg", 0)]
      "cache/0123456789abcdef0123456789abcdef.jpg" = some 0 :=
  ⟨rfl, rfl⟩

/-- C6 as amended: whenever a fetch call that did not short-circuit on a
cache hit returns a path other than the default-image path, that path is the
resolved cache path and the file there exists with non-zero size at return
time; the cache-hit branch guarantees existence only, so a zero-byte file
left behind by an earlier failure can be returned by it. -/
theorem C6_amended_download_return_nonempty (cfg : Config) (md5hex : String → String)
    (env : FetchEnv) (fs0 : Fs) (image_url : String) (force_download : Bool)
    (st : FetchState) (p : String)
    (hmiss : (!force_download &&
      fs0.fileExists (get_cached_image_path cfg md5hex image_url)) = false)
    (hp : p ≠ cfg.DEFAULT_IMAGE_PATH)
    (hres : download_image cfg md5hex env fs0 image_url force_download = .ok (st, some p)) :
    p = get_cached_image_path cfg md5hex image_url ∧
    st.fs.fileExists p = true ∧ ∃ sz, st.fs.getsize p = some sz ∧ 0 < sz := by
  rw [download_image] at hres
  by_cases hurl : image_url = ""
  · simp [hurl] at hres
  · rw [if_neg hurl] at hres
    cases hmk : env.makedirsFails with
    | true => rw [hmk] at hres; simp at hres
    | false =>
    rw [hmk] at hres
    simp only [Bool.false_eq_true, if_false, hmiss] at hres
    cases hloop : downloadLoop cfg env (get_cached_image_path cfg md5hex image_url)
        cfg.IMAGE_DOWNLOAD_MAX_RETRIES 0 ⟨fs0, 0, [], []⟩ with
    | error e => rw [hloop] at hres; simp at hres
    | ok r =>
      rw [hloop] at hres
      obtain ⟨st₁, oret⟩ := r
      cases oret with
      | some q =>
        simp only [Except.ok.injEq, Prod.mk.injEq, Option.some.injEq] at hres
        obtain ⟨hst, hq⟩ := hres
        subst hst
        subst hq
        obtain ⟨hqp, sz, hsz, hpos⟩ :=
          downloadLoop_some_nonzero cfg env _ _ _ _ _ _ hloop
        exact ⟨hqp, Fs.fileExists_of_getsize _ _ _ hsz, sz, hsz, hpos⟩
      | none =>
        by_cases hdef : st₁.fs.fileExists cfg.DEFAULT_IMAGE_PATH
        · simp only [hdef, if_true, Except.ok.injEq, Prod.mk.injEq,
            Option.some.injEq] at hres
          exact absurd hres.2.symm hp
        · simp only [hdef, Bool.false_eq_true, if_false] at hres
          simp at hres

/-- C6 witness: a successful one-attempt download of a 7-byte image body
returns the resolved path with a non-empty file behind it. -/
theorem C6_witness :
    "cache/0123456789abcdef0123456789abcdef.jpg" =
      get_cached_image_path cfgEx md5Ex "u" ∧
    Fs.fileExists [("cache/0123456789abcdef0123456789abcdef.jpg", 7)]
      "cache/0123456789abcdef0123456789abcdef.jpg" = true ∧
    ∃ sz, Fs.getsize [("cache/0123456789abcdef0123456789abcdef.jpg", 7)]
      "cache/0123456789abcdef0123456789abcdef.jpg" = some sz ∧ 0 < sz :=
  C6_amended_download_return_nonempty cfgEx md5Ex envImage [] "u" false
    ⟨[("cache/0123456789abcdef0123456789abcdef.jpg", 7)], 1, [], [.infoCached]⟩
    "cache/0123456789abcdef0123456789abcdef.jpg"
    (by decide) (by decide) rfl

/-- C7: when a file already exists at the resolved cache path and
`force_download` is false, `download_image` returns that path immediately:
no network call, no sleep, no log, and the filesystem — the file itself and
everything else in the cache directory — is left exactly as it was. -/
theorem C7_cache_hit_no_network (cfg : Config) (md5hex : String → String)
    (env : FetchEnv) (fs0 : Fs) (image_url : String)
    (hurl : image_url ≠ "")
    (hmk : env.makedirsFails = false)
    (hhit : fs0.fileExists (get_cached_image_path cfg md5hex image_url) = true) :
    download_image cfg md5hex env fs0 image_url false =
      .ok (⟨fs0, 0, [], []⟩, some (get_cached_image_path cfg md5hex image_url)) := by
  rw [download_image, if_neg hurl, hmk]
  simp [hhit]

/-- C7 witness: a cache hit on a concrete 3-byte cached file returns the
existing path with zero network calls and an unchanged filesystem. -/
theorem C7_witness :
    download_image cfgEx md5Ex envConn
        [("cache/0123456789abcdef0123456789abcdef.jpg", 3)] "u" false =
      .ok (⟨[("cache/0123456789abcdef0123456789abcdef.jpg", 3)], 0, [], []⟩,
           some (get_cached_image_path cfgEx md5Ex "u")) :=
  C7_cache_hit_no_network cfgEx md5Ex envConn
    [("cache/0123456789abcdef0123456789abcdef.jpg", 3)] "u"
    (by decide) rfl (by decide)

/-- C8: a `PermissionError` raised by the save step of the very first
attempt makes the call take exactly one attempt — one network call, no
backoff sleep, no retry — and fall through directly to the default-image
fallback: the default path if that file exists, else absent. -/
theorem C8_permission_error_single_attempt (cfg : Config) (md5hex : String → String)
    (env : FetchEnv) (fs0 : Fs) (image_url : String) (force_download : Bool)
    (ct : Option String) (part : Option Nat)
    (hurl : image_url ≠ "")
    (hmk : env.makedirsFails = false)
    (hN : 1 ≤ cfg.IMAGE_DOWNLOAD_MAX_RETRIES)
    (h0 : env.attempt 0 = .resp ct (.permError part))
    (hct : contentTypeIsImage ct = true)
    (hmiss : (!force_download &&
      fs0.fileExists (get_cached_image_path cfg md5hex image_url)) = false) :
    download_image cfg md5hex env fs0 image_url force_download =
      .ok (⟨applyPart fs0 (get_cached_image_path cfg md5hex image_url) part, 1, [],
            [LogEvent.errorPermission] ++
              (if (applyPart fs0 (get_cached_image_path cfg md5hex image_url)
                  part).fileExists cfg.DEFAULT_IMAGE_PATH then
                [LogEvent.warnUsingDefault] else [])⟩,
           if (applyPart fs0 (get_cached_image_path cfg md5hex image_url)
               part).fileExists cfg.DEFAULT_IMAGE_PATH then
             some cfg.DEFAULT_IMAGE_PATH else none) := by
  rw [download_image, if_neg hurl, hmk]
  simp only [Bool.false_eq_true, if_false, hmiss]
  obtain ⟨m, hm⟩ : ∃ m, cfg.IMAGE_DOWNLOAD_MAX_RETRIES = m + 1 :=
    ⟨cfg.IMAGE_DOWNLOAD_MAX_RETRIES - 1, by omega⟩
  rw [hm, downloadLoop, h0]
  simp only [hct, Bool.not_true, Bool.false_eq_true, if_false]
  by_cases hdef : (applyPart fs0 (get_cached_image_path cfg md5hex image_url)
      part).fileExists cfg.DEFAULT_IMAGE_PATH
  · simp [hdef]
  · simp [hdef]

/-- C8 witness: a first-attempt permission error with the default image on
disk: one network call, no sleep, the default path returned. -/
theorem C8_witness :
    download_image cfgEx md5Ex envPerm [("default.png", 5)] "u" true =
      .ok (⟨applyPart [("default.png", 5)] (get_cached_image_path cfgEx md5Ex "u") none,
            1, [],
            [LogEvent.errorPermission] ++
              (if (applyPart [("default.png", 5)] (get_cached_image_path cfgEx md5Ex "u")
                  none).fileExists cfgEx.DEFAULT_IMAGE_PATH then
                [LogEvent.warnUsingDefault] else [])⟩,
           if (applyPart [("default.png", 5)] (get_cached_image_path cfgEx md5Ex "u")
               none).fileExists cfgEx.DEFAULT_IMAGE_PATH then
             some cfgEx.DEFAULT_IMAGE_PATH else none) :=
  C8_permission_error_single_attempt cfgEx md5Ex envPerm [("default.png", 5)] "u" true
    (some "image/png") none (by decide) rfl (by decide) rfl (by decide) (by decide)

/-! ## Eviction claims -/

/-- C1: the claim says a single `clear_old_cache` call removes oldest files
until the remaining total size is at or under the budget or no files remain.
The code does not: after `os.remove(oldest_file)` it reads
`os.path.getsize(oldest_file)` on the file it has just deleted, the read
raises, and the surrounding handler ends the pass.  With three 1 MiB files
(oldest first `a.jpg`) and a 1 MB budget, only `a.jpg` is removed and the
remaining total, 2 MB, still exceeds the budget. -/
theorem C1_eviction_aborts_after_first_removal :
    clear_old_cache cfgEx dirC1 (some 1) =
      [⟨"b.jpg", 1048576, 2⟩, ⟨"c.jpg", 1048576, 3⟩] ∧
    Rat.divInt ((((clear_old_cache cfgEx dirC1 (some 1)).map (·.size)).sum : Nat) : Int)
        (1024 * 1024) > 1 := by
  decide

/-- C9: a caller-supplied budget of `0` is falsy in
`max_cache_size_mb or Config.IMAGE_CACHE_MAX_SIZE_MB`, so it is replaced by
the configured default budget: `clear_old_cache` behaves exactly as if no
budget had been supplied. -/
theorem C9_zero_budget_behaves_as_default (cfg : Config) (dir : List CacheFile) :
    clear_old_cache cfg dir (some 0) = clear_old_cache cfg dir none := by
  simp [clear_old_cache]

/-! ## Path-resolution claim (C5) -/

/-- C5 counterexample: the claim reads the extension off the last `'.'` of
the whole pre-`'?'` part of the URL, but `os.path.splitext` only inspects
the part after the last `'/'`.  For `http://a.com/img` the claim's rule
yields `.com/img` while the code resolves to the `.jpg` default, so the
resolved filename is not the one the claim describes. -/
theorem C5_counterexample :
    get_cached_image_path cfgEx md5Ex "http://a.com/img" ≠
      osPathJoin cfgEx.IMAGES_CACHE_DIR
        (md5Ex "http://a.com/img" ++ extClaimC5 "http://a.com/img") := by
  decide

/-- C5 as amended: for every URL string the resolved cache filename is the
hex digest of the URL concatenated with an extension, joined to the cache
directory, where the extension is taken from the final `'/'`-separated
segment of the URL's pre-`'?'` part: if, after the segment's leading dots, a
`'.'` remains, the extension runs from the segment's last `'.'` to the end
of the segment, and otherwise it is the default `'.jpg'`. -/
theorem C5_amended_resolved_path (cfg : Config) (md5hex : String → String)
    (image_url : String) :
    get_cached_image_path cfg md5hex image_url =
      osPathJoin cfg.IMAGES_CACHE_DIR (md5hex image_url ++ extAmendedC5 image_url) := by
  unfold get_cached_image_path
  rw [fileExtensionOf_eq_amended]
